import Mathlib

/-!
Verification development for the matchmaking and session-state core of an
anonymous chat-relay bot (source files: `utils.py`, `admin.py`, `handlers.py`,
`config.py`).

The mutable module-level dictionaries and lists of the source are gathered in a
`State` structure.  Python dictionaries are embedded as association lists with
their insertion-order semantics (assignment to an existing key replaces the
value in place, assignment to a fresh key appends at the end, `del` removes the
entry, iteration follows list order); Python lists are embedded as `List Nat`
with `list.remove` being `List.erase` (first occurrence).  Python sets are
embedded as duplicate-free lists (`setInsert`).  Calls to `random.choice` on a
non-empty list are embedded by passing an arbitrary index `k` and selecting
element `k % length`, so theorems quantifying over `k` cover every possible
random outcome.  Timestamps (`time.time()`) are embedded as natural numbers
passed in as a `now` argument.  Message sending, animations and keyboard
markup have no effect on the registries and are not modelled.
-/

namespace AnonChat

/-- Lookup in a Python-style dict embedded as an association list:
returns the value of the first (and, for genuine dict states, only)
entry with the given key. -/
def dictGet {α β : Type} [DecidableEq α] : List (α × β) → α → Option β
  | [], _ => none
  | (k', v) :: rest, k => if k' = k then some v else dictGet rest k

/-- Python `k in d` for a dict. -/
def dictContains {α β : Type} [DecidableEq α] (d : List (α × β)) (k : α) : Bool :=
  (dictGet d k).isSome

/-- Python `d[k] = v`: replace the value of an existing key in place,
otherwise append the new entry at the end (dict insertion order). -/
def dictInsert {α β : Type} [DecidableEq α] : List (α × β) → α → β → List (α × β)
  | [], k, v => [(k, v)]
  | (k', v') :: rest, k, v =>
      if k' = k then (k, v) :: rest else (k', v') :: dictInsert rest k v

/-- Python `del d[k]` (used in the source only under a `k in d` guard):
drop the entries with the given key, keeping the rest in order. -/
def dictErase {α β : Type} [DecidableEq α] : List (α × β) → α → List (α × β)
  | [], _ => []
  | (k', v) :: rest, k => if k' = k then dictErase rest k else (k', v) :: dictErase rest k

/-- Python `s.add(x)` for a set embedded as a duplicate-free list. -/
def setInsert (l : List Nat) (x : Nat) : List Nat :=
  if x ∈ l then l else l ++ [x]

/-- Number of occurrences of `a` in `l` (used to state that a user appears
at most once in a waiting list). -/
def countOcc : List Nat → Nat → Nat
  | [], _ => 0
  | x :: t, a => (if x = a then 1 else 0) + countOcc t a

/-- `ChatMode` enum of `utils.py`. -/
inductive ChatMode
  | one_on_one
  | group
  | topic
deriving DecidableEq, Repr

/-- `AVAILABLE_TOPICS` of `utils.py`. -/
def AVAILABLE_TOPICS : List String :=
  ["arts", "books", "movies", "music", "sports",
   "technology", "gaming", "travel", "food",
   "science", "languages", "pets", "other"]

/-- A user-preference record of `USER_PREFERENCES`
(`{'mode': ..., 'topic': ..., 'group_id': ...}`). -/
structure Preference where
  mode : ChatMode
  topic : Option String
  group_id : Option String
deriving DecidableEq, Repr

/-- The default preference record created by `get_user_preference`. -/
def defaultPreference : Preference :=
  { mode := ChatMode.one_on_one, topic := none, group_id := none }

/-- The `GroupChat` dataclass of `utils.py`.  `members` is a Python set of
user ids, embedded as a duplicate-free list. -/
structure GroupChat where
  id : String
  creator_id : Nat
  members : List Nat
  name : String
  max_size : Nat
deriving DecidableEq, Repr

/-- `GroupChat.is_full`. -/
def GroupChat.is_full (g : GroupChat) : Bool :=
  g.max_size ≤ g.members.length

/-- A pending identity-reveal request of `REVEAL_REQUESTS`
(`{'partner_id': id, 'status': 'pending'}`). -/
structure RevealRequest where
  partner_id : Nat
  status : String
deriving DecidableEq, Repr

/-- All module-level mutable data of the core, gathered into one record:
the registries of `utils.py` (`WAITING_USERS`, `WAITING_BY_TOPIC`,
`ACTIVE_CONNECTIONS`, `WAITING_SINCE`, `USER_PREFERENCES`, `GROUP_CHATS`,
`ALL_USERS`, `REVEAL_REQUESTS`) and the access state of `config.py`
(`BANNED_USERS`, `ADMIN_IDS`, `SYSTEM_CONFIG["connection_timeout"]`,
`SYSTEM_CONFIG["maintenance_mode"]`).  For `ALL_USERS` only the key set
matters to the core, so it is embedded as the list of known user ids. -/
structure State where
  waiting_users : List Nat
  waiting_by_topic : List (String × List Nat)
  active_connections : List (Nat × Nat)
  waiting_since : List (Nat × Nat)
  user_preferences : List (Nat × Preference)
  group_chats : List (String × GroupChat)
  all_users : List Nat
  reveal_requests : List (Nat × RevealRequest)
  banned_users : List Nat
  admin_ids : List Nat
  connection_timeout : Nat
  maintenance_mode : Bool
deriving DecidableEq, Repr

/-- The process start-up state: every registry empty, one (empty) waiting
list per topic, `connection_timeout = 45`, maintenance off, no admins
configured. -/
def initialState : State where
  waiting_users := []
  waiting_by_topic := AVAILABLE_TOPICS.map (fun t => (t, []))
  active_connections := []
  waiting_since := []
  user_preferences := []
  group_chats := []
  all_users := []
  reveal_requests := []
  banned_users := []
  admin_ids := []
  connection_timeout := 45
  maintenance_mode := false

/-- `utils.TIMEOUT_SECONDS`. -/
def TIMEOUT_SECONDS : Nat := 45

/-- `admin.is_admin`, reading `ADMIN_IDS`. -/
def is_admin (s : State) (uid : Nat) : Bool :=
  uid ∈ s.admin_ids

/-- `utils.get_user_preference`: return the stored record, or create and
store the default record if the user has none.  Returns the record together
with the (possibly extended) state, since the lazy creation writes to
`USER_PREFERENCES`. -/
def get_user_preference (s : State) (uid : Nat) : Preference × State :=
  match dictGet s.user_preferences uid with
  | some p => (p, s)
  | none =>
      (defaultPreference,
       { s with user_preferences := dictInsert s.user_preferences uid defaultPreference })

/-- `utils.set_user_preference`.  The Python signature is
`set_user_preference(user_id, mode=None, topic=None, group_id=None)` with
merge guards `if mode:`, `if topic is not None:`, `if group_id is not None:`;
`none` here is the Python `None` default, meaning the field is left as it
was.  (Consequently no caller can clear the `topic` or `group_id` field.) -/
def set_user_preference (s : State) (uid : Nat) (mode : Option ChatMode)
    (topic : Option String) (group_id : Option String) : Preference × State :=
  let (prefs, s) := get_user_preference s uid
  let prefs := match mode with
    | some m => { prefs with mode := m }
    | none => prefs
  let prefs := match topic with
    | some t => { prefs with topic := some t }
    | none => prefs
  let prefs := match group_id with
    | some g => { prefs with group_id := some g }
    | none => prefs
  (prefs, { s with user_preferences := dictInsert s.user_preferences uid prefs })

/-- The waiting list of one topic (`WAITING_BY_TOPIC[topic]`; the dict is
initialised with an entry for every topic in `AVAILABLE_TOPICS`). -/
def topicQueue (s : State) (t : String) : List Nat :=
  (dictGet s.waiting_by_topic t).getD []

/-- Replace the waiting list of one topic. -/
def setTopicQueue (s : State) (t : String) (q : List Nat) : State :=
  { s with waiting_by_topic := dictInsert s.waiting_by_topic t q }

/-- The candidate-selection phase of `utils.find_partner`, once mode and
topic are fixed: the candidate list is a copy of the relevant waiting list
with the first occurrence of the requester removed (`list.remove`);
`random.choice` on the non-empty copy is embedded as selection of element
`k % length`; the explicit self-match guard of the source returns `none`
if the chosen candidate is the requester.  Only reads the state. -/
def find_partner_select (s : State) (uid : Nat) (mode : ChatMode)
    (topic : Option String) (k : Nat) : Option Nat :=
  match mode with
  | ChatMode.one_on_one =>
      let potential_partners := s.waiting_users.erase uid
      if potential_partners.isEmpty then none
      else
        let partner_id := potential_partners.getD (k % potential_partners.length) 0
        if partner_id = uid then none else some partner_id
  | ChatMode.topic =>
      match topic with
      | some t =>
          if t ∈ AVAILABLE_TOPICS then
            let potential_partners := (topicQueue s t).erase uid
            if potential_partners.isEmpty then none
            else
              let partner_id := potential_partners.getD (k % potential_partners.length) 0
              if partner_id = uid then none else some partner_id
          else none
      | none => none
  | ChatMode.group => none

/-- `utils.find_partner(user_id, mode=None, topic=None)`.  When `mode` is
`none` the user's stored preference is read via `get_user_preference`
(which lazily creates and stores a default record, hence the returned
state); then the selection phase runs on the waiting lists. -/
def find_partner (s : State) (uid : Nat) (mode : Option ChatMode)
    (topic : Option String) (k : Nat) : Option Nat × State :=
  match mode with
  | none =>
      let (p, s) := get_user_preference s uid
      (find_partner_select s uid p.mode p.topic k, s)
  | some m => (find_partner_select s uid m topic k, s)

/-- `utils.create_group_chat(creator_id, name, max_size)`.  The fresh group
id produced by `generate_group_id()` (built from `time.time()` and
`random.randint`) is passed in as the argument `gid`. -/
def create_group_chat (s : State) (creator_id : Nat) (gid name : String)
    (max_size : Nat) : GroupChat × State :=
  let group : GroupChat :=
    { id := gid, creator_id := creator_id, members := [creator_id],
      name := name, max_size := max_size }
  let s := { s with group_chats := dictInsert s.group_chats gid group }
  let s := (set_user_preference s creator_id (some ChatMode.group) none (some gid)).2
  (group, s)

/-- `utils.add_to_group(user_id, group_id)`. -/
def add_to_group (s : State) (uid : Nat) (gid : String) : Bool × State :=
  match dictGet s.group_chats gid with
  | some g =>
      if g.is_full then (false, s)
      else
        let g := { g with members := setInsert g.members uid }
        let s := { s with group_chats := dictInsert s.group_chats gid g }
        let s := (set_user_preference s uid (some ChatMode.group) none (some gid)).2
        (true, s)
  | none => (false, s)

/-- Result value of `utils.leave_group`: the strings `"deleted"`,
`"transferred"`, `"left"`, or Python `False`. -/
inductive LeaveResult
  | deleted
  | transferred
  | leftGroup
  | failed
deriving DecidableEq, Repr

/-- `utils.leave_group(user_id, group_id)`: remove the member, reset the
leaver's mode (the `group_id=None` keyword is the unsupplied default, so
the stored `group_id` field is not cleared), delete the group if it became
empty, otherwise transfer the creator role to `next(iter(members))`
(embedded as the head of the member list) if the creator left. -/
def leave_group (s : State) (uid : Nat) (gid : String) : LeaveResult × State :=
  match dictGet s.group_chats gid with
  | some g =>
      if uid ∈ g.members then
        let g := { g with members := g.members.erase uid }
        let s := { s with group_chats := dictInsert s.group_chats gid g }
        let s := (set_user_preference s uid (some ChatMode.one_on_one) none none).2
        if g.members.isEmpty then
          (LeaveResult.deleted, { s with group_chats := dictErase s.group_chats gid })
        else if uid = g.creator_id ∧ ¬ g.members.isEmpty then
          let g := { g with creator_id := g.members.headI }
          (LeaveResult.transferred, { s with group_chats := dictInsert s.group_chats gid g })
        else (LeaveResult.leftGroup, s)
      else (LeaveResult.failed, s)
  | none => (LeaveResult.failed, s)

/-- `utils.disconnect_users(user_id, partner_id)`: delete both directed
connection entries, delete both users' reveal requests, and call
`set_user_preference(u, mode=ONE_ON_ONE, topic=None, group_id=None)` for
both — where `topic=None`/`group_id=None` are the unsupplied defaults, so
only the mode field actually changes. -/
def disconnect_users (s : State) (uid pid : Nat) : State :=
  let s := { s with active_connections :=
               dictErase (dictErase s.active_connections uid) pid }
  let s := { s with reveal_requests :=
               dictErase (dictErase s.reveal_requests uid) pid }
  let s := (set_user_preference s uid (some ChatMode.one_on_one) none none).2
  let s := (set_user_preference s pid (some ChatMode.one_on_one) none none).2
  s

/-- Eviction of one timed-out user inside `utils.check_waiting_timeouts`:
remove from `WAITING_USERS` if present; remove from the queue of the user's
preferred topic only when their stored mode is TOPIC with a valid topic;
delete the `WAITING_SINCE` entry. -/
def evictOne (s : State) (uid : Nat) : State :=
  let (prefs, s) := get_user_preference s uid
  let s := { s with waiting_users := s.waiting_users.erase uid }
  let s :=
    match prefs.mode, prefs.topic with
    | ChatMode.topic, some t =>
        if t ∈ AVAILABLE_TOPICS then setTopicQueue s t ((topicQueue s t).erase uid)
        else s
    | _, _ => s
  { s with waiting_since := dictErase s.waiting_since uid }

/-- `utils.check_waiting_timeouts` (state effect): collect every user whose
elapsed waiting time exceeds the constant `TIMEOUT_SECONDS` — the function
compares against the module constant, not against
`SYSTEM_CONFIG["connection_timeout"]` — then evict each collected user.
The 30–35 s branch only sends a warning message and changes no registry. -/
def check_waiting_timeouts (s : State) (now : Nat) : State :=
  let timed_out_users :=
    (s.waiting_since.filter (fun p => TIMEOUT_SECONDS < now - p.2)).map (fun p => p.1)
  timed_out_users.foldl evictOne s

/-- The disconnect loop of `admin.toggle_maintenance_mode`: iterate over a
snapshot of the connection table's keys; for each non-admin key whose
current partner is truthy (Python `if partner_id`, i.e. non-zero) and not
an admin, delete both directed entries. -/
def maintDisconnectLoop (admins : List Nat) : List Nat → List (Nat × Nat) → List (Nat × Nat)
  | [], conns => conns
  | uid :: rest, conns =>
      if uid ∈ admins then maintDisconnectLoop admins rest conns
      else
        match dictGet conns uid with
        | some partner_id =>
            if partner_id ≠ 0 ∧ partner_id ∉ admins then
              maintDisconnectLoop admins rest (dictErase (dictErase conns uid) partner_id)
            else maintDisconnectLoop admins rest conns
        | none => maintDisconnectLoop admins rest conns

/-- `admin.toggle_maintenance_mode(admin_id, enable)`: set the maintenance
flag; when enabling, force-disconnect every active connection in which
neither party is an admin. -/
def toggle_maintenance_mode (s : State) (enable : Bool) : State :=
  let s := { s with maintenance_mode := enable }
  if enable then
    { s with active_connections :=
        (maintDisconnectLoop s.admin_ids (s.active_connections.map (fun p => p.1))
          s.active_connections) }
  else s

/-- The group-removal loop of `admin.ban_user`: for every group containing
the target, remove the target from its member set, and delete the group if
that removal left it empty. -/
def banRemoveFromGroups (groups : List (String × GroupChat)) (target : Nat) :
    List (String × GroupChat) :=
  groups.filterMap (fun e =>
    if target ∈ e.2.members then
      let g := { e.2 with members := e.2.members.erase target }
      if g.members.isEmpty then none else some (e.1, g)
    else some e)

/-- `admin.ban_user(admin_id, target_user_id)`: fail (returning `False`,
with no state change) if the target was never recorded in `ALL_USERS`;
otherwise add the target to `BANNED_USERS`, delete both directed connection
entries if the target is connected, remove the target from `WAITING_USERS`
and from every topic waiting list, and remove the target from every group
(deleting groups left empty).  The function does not touch
`REVEAL_REQUESTS`, `USER_PREFERENCES` or `WAITING_SINCE`. -/
def ban_user (s : State) (target : Nat) : Bool × State :=
  if target ∉ s.all_users then (false, s)
  else
    let s := { s with banned_users := setInsert s.banned_users target }
    let s :=
      match dictGet s.active_connections target with
      | some partner_id =>
          { s with active_connections :=
              dictErase (dictErase s.active_connections target) partner_id }
      | none => s
    let s := { s with waiting_users := s.waiting_users.erase target }
    let s := { s with waiting_by_topic :=
                 (s.waiting_by_topic.map
                   (fun (e : String × List Nat) => (e.1, e.2.erase target))) }
    let s := { s with group_chats := banRemoveFromGroups s.group_chats target }
    (true, s)

/-- The `set_timeout` action of `admin.admin_system_config` (also used by
the `admin_set_timeout_*` dashboard callbacks): an admin (every admin holds
the `system_mgmt` privilege, since `config.ADMIN_PRIVILEGES` maps every
privilege to `True`) sets `SYSTEM_CONFIG["connection_timeout"]`, rejecting
values outside 5–300. -/
def admin_set_timeout (s : State) (admin_id v : Nat) : State :=
  if ¬ is_admin s admin_id then s
  else if v < 5 ∨ 300 < v then s
  else { s with connection_timeout := v }

/-- Shared access gate of the handlers (`handlers.py`): a banned non-admin
or, in maintenance mode, any non-admin is turned away before the handler
body runs. -/
def gateBlocks (s : State) (uid : Nat) : Bool :=
  (uid ∈ s.banned_users ∧ ¬ is_admin s uid) ∨
    (s.maintenance_mode ∧ ¬ is_admin s uid)

/-- `handlers.connect` (registry effect).  `now` embeds `time.time()` at
the enqueue step and `k` the `random.choice` of `find_partner`.  The
handler records the caller in `ALL_USERS`, applies the access gate, and
then: rejects if the caller is a key of `ACTIVE_CONNECTIONS`; rejects if
the caller's mode is GROUP with a live `group_id`; rejects if the caller is
in `WAITING_USERS` (topic waiting lists are not checked here); for TOPIC
mode without a valid stored topic it only shows the topic menu; for GROUP
mode it defers to `group_command`, whose registry effect is
`set_user_preference(user_id, mode=GROUP)`.  Otherwise `find_partner` is
called; on a match both directed connection entries are created, both users
are removed from the waiting lists selected by the caller's mode and the
partner's stored preference, and both `WAITING_SINCE` entries are deleted;
on no match the caller is appended to the queue of their mode and their
enqueue time is recorded. -/
def connect (s : State) (uid : Nat) (now : Nat) (k : Nat) : State :=
  let s := { s with all_users := setInsert s.all_users uid }
  if gateBlocks s uid then s
  else
    let (user_prefs, s) := get_user_preference s uid
    let chat_mode := user_prefs.mode
    let in_live_group : Bool :=
      match user_prefs.group_id with
      | some gid => dictContains s.group_chats gid
      | none => false
    let topic_invalid : Bool :=
      match user_prefs.topic with
      | some t => decide (t ∉ AVAILABLE_TOPICS)
      | none => true
    if dictContains s.active_connections uid then s
    else if chat_mode = ChatMode.group ∧ in_live_group then s
    else if uid ∈ s.waiting_users then s
    else
      let topic : Option String :=
        match chat_mode with
        | ChatMode.topic => user_prefs.topic
        | _ => none
      if chat_mode = ChatMode.topic ∧ topic_invalid then s
      else if chat_mode = ChatMode.group then
        (set_user_preference s uid (some ChatMode.group) none none).2
      else
        let (partner?, s) := find_partner s uid none none k
        match partner? with
        | some partner_id =>
            let s := { s with active_connections :=
                         (dictInsert (dictInsert s.active_connections uid partner_id)
                           partner_id uid) }
            let s :=
              match chat_mode, topic with
              | ChatMode.one_on_one, _ =>
                  { s with waiting_users :=
                      (s.waiting_users.erase uid).erase partner_id }
              | ChatMode.topic, some t =>
                  if t ∈ AVAILABLE_TOPICS then
                    let s := setTopicQueue s t ((topicQueue s t).erase uid)
                    let (partner_prefs, s) := get_user_preference s partner_id
                    match partner_prefs.mode, partner_prefs.topic with
                    | ChatMode.topic, some pt =>
                        if pt ∈ AVAILABLE_TOPICS then
                          setTopicQueue s pt ((topicQueue s pt).erase partner_id)
                        else s
                    | _, _ => s
                  else s
              | _, _ => s
            { s with waiting_since :=
                dictErase (dictErase s.waiting_since uid) partner_id }
        | none =>
            let s :=
              match chat_mode, topic with
              | ChatMode.one_on_one, _ =>
                  { s with waiting_users := s.waiting_users ++ [uid] }
              | ChatMode.topic, some t =>
                  if t ∈ AVAILABLE_TOPICS then
                    setTopicQueue s t (topicQueue s t ++ [uid])
                  else s
              | _, _ => s
            { s with waiting_since := dictInsert s.waiting_since uid now }

/-- Removal from the first topic waiting list containing the user
(the `for ... break` loop of `handlers.disconnect`). -/
def removeFromFirstTopic : List (String × List Nat) → Nat → List (String × List Nat)
  | [], _ => []
  | (t, q) :: rest, uid =>
      if uid ∈ q then (t, q.erase uid) :: rest
      else (t, q) :: removeFromFirstTopic rest uid

/-- `handlers.disconnect` (registry effect): if connected, run
`disconnect_users` on the pair; else if in the global waiting list, leave
it and drop the timestamp; else if in some topic waiting list, leave the
first such list and drop the timestamp; else do nothing. -/
def disconnect (s : State) (uid : Nat) : State :=
  let s := { s with all_users := setInsert s.all_users uid }
  if gateBlocks s uid then s
  else
    match dictGet s.active_connections uid with
    | some partner_id => disconnect_users s uid partner_id
    | none =>
        if uid ∈ s.waiting_users then
          let s := { s with waiting_users := s.waiting_users.erase uid }
          { s with waiting_since := dictErase s.waiting_since uid }
        else if s.waiting_by_topic.any (fun e => uid ∈ e.2) then
          let s := { s with waiting_by_topic :=
                       removeFromFirstTopic s.waiting_by_topic uid }
          { s with waiting_since := dictErase s.waiting_since uid }
        else s

/-- `handlers.reveal_identity` (registry effect): after the gate, require
an active connection; reject (changing no reveal state) if the caller
already has an outstanding request; otherwise store a pending request for
the caller against their current partner. -/
def reveal_identity (s : State) (uid : Nat) : State :=
  let s := { s with all_users := setInsert s.all_users uid }
  if gateBlocks s uid then s
  else
    match dictGet s.active_connections uid with
    | none => s
    | some partner_id =>
        if dictContains s.reveal_requests uid then s
        else
          { s with reveal_requests :=
              (dictInsert s.reveal_requests uid
                { partner_id := partner_id, status := "pending" }) }

/-- The `reveal_no_<requester>` branch of `handlers.handle_callback_query`:
the partner declines, and the requester's pending request is deleted if
still present. -/
def cb_reveal_no (s : State) (uid requester_id : Nat) : State :=
  let s := { s with all_users := setInsert s.all_users uid }
  if gateBlocks s uid then s
  else
    if dictContains s.reveal_requests requester_id then
      { s with reveal_requests := dictErase s.reveal_requests requester_id }
    else s

/-- The `mode_one_on_one` branch of `handlers.handle_callback_query`:
`set_user_preference(user_id, mode=ONE_ON_ONE, topic=None, group_id=None)`
— the `None` keywords are the unsupplied defaults, so only the mode field
changes; the user is not removed from any waiting list. -/
def cb_mode_one_on_one (s : State) (uid : Nat) : State :=
  let s := { s with all_users := setInsert s.all_users uid }
  if gateBlocks s uid then s
  else (set_user_preference s uid (some ChatMode.one_on_one) none none).2

/-- The `topic_<t>` branch of `handlers.handle_callback_query`:
`set_user_preference(user_id, mode=TOPIC, topic=t)` for a valid topic. -/
def cb_topic (s : State) (uid : Nat) (t : String) : State :=
  let s := { s with all_users := setInsert s.all_users uid }
  if gateBlocks s uid then s
  else if t ∈ AVAILABLE_TOPICS then
    (set_user_preference s uid (some ChatMode.topic) (some t) none).2
  else s

/-! Concrete scenario states used by the evaluation theorems below. -/

/-- Scenario for the queue/connection exclusivity invariant: user 1 picks
topic `arts` and enqueues; user 1 then switches mode to one-on-one via the
`mode_one_on_one` callback (which does not dequeue); user 2 enqueues
one-on-one; user 1 connects one-on-one and is matched with user 2. -/
def stateC1 : State :=
  connect (connect (cb_mode_one_on_one (connect (cb_topic initialState 1 "arts") 1 10 0) 1) 2 20 0) 1 30 0

/-- Scenario for `disconnect` preference reset: users 1 and 2 both pick
topic `arts`; user 2 enqueues; user 1 connects and is matched with user 2.
Both are now connected and both preference records read
`{mode=TOPIC, topic="arts", group_id=None}`. -/
def stateC2 : State :=
  connect (connect (cb_topic (cb_topic initialState 1 "arts") 2 "arts") 2 0 0) 1 1 0

/-- Scenario for the enqueue-rejection check: user 1 is already waiting in
the `arts` topic queue (with preference TOPIC/`arts` and a recorded
waiting-since timestamp), and nobody else is waiting. -/
def stateC3 : State :=
  { initialState with
    user_preferences := [(1, ⟨ChatMode.topic, some "arts", none⟩)]
    waiting_by_topic := dictInsert initialState.waiting_by_topic "arts" [1]
    waiting_since := [(1, 0)] }

/-- Scenario for `ban_user`: user 1 is known, waiting in the global queue
since time 5, has a pending reveal request towards user 2, and has a
non-default preference record; 9 is an admin. -/
def stateC4 : State :=
  { initialState with
    admin_ids := [9]
    all_users := [1]
    waiting_users := [1]
    waiting_since := [(1, 5)]
    reveal_requests := [(1, ⟨2, "pending"⟩)]
    user_preferences := [(1, ⟨ChatMode.topic, some "arts", none⟩)] }

/-- Scenario for the runtime-configurable timeout: user 1 has been waiting
in the global queue since time 0; 9 is an admin. -/
def stateC5 : State :=
  { initialState with
    admin_ids := [9]
    waiting_users := [1]
    waiting_since := [(1, 0)] }

/-- Scenario for maintenance mode: users 1 and 2 (both non-admins) are
connected to each other, and admin 3 is connected to non-admin 4. -/
def stateC6 : State :=
  { initialState with
    admin_ids := [3]
    active_connections := [(1, 2), (2, 1), (3, 4), (4, 3)] }

/-- Scenario for the reveal-request state machine: users 1 and 2 are
connected, no reveal request is outstanding. -/
def stateC7 : State :=
  { initialState with active_connections := [(1, 2), (2, 1)] }

/-! Library of small facts about the dict embedding. -/

theorem dictGet_dictErase {α β : Type} [DecidableEq α] (d : List (α × β)) (k a : α) :
    dictGet (dictErase d k) a = if a = k then none else dictGet d a := by
  induction d with
  | nil => simp [dictGet, dictErase]
  | cons p rest ih =>
    rcases p with ⟨k', v'⟩
    by_cases hk : k' = k
    · subst hk
      by_cases hak : a = k'
      · subst hak
        simp [dictErase, dictGet, ih]
      · simp [dictErase, dictGet, ih, hak, Ne.symm hak]
    · by_cases hpa : k' = a
      · subst hpa
        simp [dictErase, dictGet, hk]
      · simp [dictErase, dictGet, hk, hpa, ih]

theorem dictGet_dictInsert_self {α β : Type} [DecidableEq α] (d : List (α × β)) (k : α) (v : β) :
    dictGet (dictInsert d k v) k = some v := by
  induction d with
  | nil => simp [dictGet, dictInsert]
  | cons p rest ih =>
    by_cases hpk : p.1 = k
    · rcases p with ⟨k', v'⟩
      simp only at hpk
      simp [dictInsert, hpk, dictGet]
    · rcases p with ⟨k', v'⟩
      simp only at hpk
      simp [dictInsert, hpk, dictGet, ih]

theorem dictGet_dictInsert_ne {α β : Type} [DecidableEq α] (d : List (α × β)) (k : α) (v : β)
    (a : α) (h : a ≠ k) : dictGet (dictInsert d k v) a = dictGet d a := by
  induction d with
  | nil => simp [dictGet, dictInsert, Ne.symm h]
  | cons p rest ih =>
    rcases p with ⟨k', v'⟩
    by_cases hpk : k' = k
    · subst hpk
      simp [dictInsert, dictGet, Ne.symm h]
    · simp [dictInsert, hpk, dictGet, ih]

theorem mem_of_dictGet_eq_some {α β : Type} [DecidableEq α] {d : List (α × β)} {a : α} {b : β}
    (h : dictGet d a = some b) : (a, b) ∈ d := by
  induction d with
  | nil => simp [dictGet] at h
  | cons p rest ih =>
    rcases p with ⟨k', v'⟩
    by_cases hk : k' = a
    · subst hk
      simp [dictGet] at h
      simp [h]
    · simp [dictGet, hk] at h
      exact List.mem_cons_of_mem _ (ih h)

theorem dictGet_eq_some_of_mem {α β : Type} [DecidableEq α] {d : List (α × β)} {a : α} {b : β}
    (hnd : (d.map Prod.fst).Nodup) (h : (a, b) ∈ d) : dictGet d a = some b := by
  induction d with
  | nil => simp at h
  | cons p rest ih =>
    rcases p with ⟨k', v'⟩
    simp only [List.map_cons, List.nodup_cons] at hnd
    rcases List.mem_cons.mp h with h' | h'
    · injection h' with h1 h2
      subst h1
      subst h2
      simp [dictGet]
    · have hka : k' ≠ a := by
        intro he
        exact hnd.1 (he ▸ (List.mem_map_of_mem Prod.fst h'))
      simp [dictGet, hka, ih hnd.2 h']

theorem dictErase_sublist {α β : Type} [DecidableEq α] (d : List (α × β)) (k : α) :
    (dictErase d k).Sublist d := by
  induction d with
  | nil => simp [dictErase]
  | cons p rest ih =>
    rcases p with ⟨k', v'⟩
    by_cases hk : k' = k
    · simp only [dictErase, if_pos hk]
      exact ih.cons (k', v')
    · simp only [dictErase, if_neg hk]
      exact ih.cons₂ (k', v')

theorem mem_of_mem_dictErase {α β : Type} [DecidableEq α] {d : List (α × β)} {k : α}
    {p : α × β} (h : p ∈ dictErase d k) : p ∈ d :=
  (dictErase_sublist d k).mem h

theorem nodupKeys_dictErase {α β : Type} [DecidableEq α] (d : List (α × β)) (k : α)
    (hnd : (d.map Prod.fst).Nodup) : ((dictErase d k).map Prod.fst).Nodup :=
  ((dictErase_sublist d k).map Prod.fst).nodup hnd

theorem countOcc_eq_zero_of_not_mem {a : Nat} {l : List Nat} (h : a ∉ l) :
    countOcc l a = 0 := by
  induction l with
  | nil => simp [countOcc]
  | cons x t ih =>
    simp only [List.mem_cons, not_or] at h
    simp [countOcc, Ne.symm h.1, ih h.2]

theorem not_mem_of_countOcc_eq_zero {a : Nat} {l : List Nat} (h : countOcc l a = 0) :
    a ∉ l := by
  induction l with
  | nil => simp
  | cons x t ih =>
    simp only [countOcc] at h
    by_cases hxa : x = a
    · simp [hxa] at h
    · intro hm
      rcases List.mem_cons.mp hm with he | hm'
      · exact hxa he.symm
      · exact ih (by omega) hm'

theorem countOcc_le_one_not_mem_erase {a : Nat} {l : List Nat}
    (h : countOcc l a ≤ 1) : a ∉ l.erase a := by
  induction l with
  | nil => simp
  | cons x t ih =>
    by_cases hxa : x = a
    · subst hxa
      rw [List.erase_cons_head]
      simp [countOcc] at h
      exact not_mem_of_countOcc_eq_zero (by omega)
    · rw [List.erase_cons_tail (by simpa using hxa)]
      simp only [countOcc, if_neg hxa] at h
      intro hmem
      rcases List.mem_cons.mp hmem with he | hmem'
      · exact hxa he.symm
      · exact ih (by omega) hmem'

theorem nodup_countOcc_le_one (a : Nat) {l : List Nat} (h : l.Nodup) :
    countOcc l a ≤ 1 := by
  induction l with
  | nil => simp [countOcc]
  | cons x t ih =>
    rcases List.nodup_cons.mp h with ⟨hx, ht⟩
    by_cases hxa : x = a
    · subst hxa
      simp [countOcc, countOcc_eq_zero_of_not_mem hx]
    · simp only [countOcc, if_neg hxa]
      simpa using ih ht

theorem nodup_not_mem_erase {a : Nat} {l : List Nat} (h : l.Nodup) : a ∉ l.erase a :=
  countOcc_le_one_not_mem_erase (nodup_countOcc_le_one a h)

theorem mem_setInsert_self (l : List Nat) (x : Nat) : x ∈ setInsert l x := by
  unfold setInsert
  by_cases h : x ∈ l <;> simp [h]

theorem set_user_preference_shape (s : State) (u : Nat) (m : Option ChatMode)
    (t g : Option String) :
    ∃ d, (set_user_preference s u m t g).2 = { s with user_preferences := d } := by
  unfold set_user_preference get_user_preference
  cases h : dictGet s.user_preferences u
  · exact ⟨_, rfl⟩
  · exact ⟨_, rfl⟩

theorem supref_group_chats (s : State) (u : Nat) (m : Option ChatMode) (t g : Option String) :
    ((set_user_preference s u m t g).2).group_chats = s.group_chats := by
  obtain ⟨d, hd⟩ := set_user_preference_shape s u m t g
  rw [hd]

/-! The claims. -/

/-- C1: the claim states that no user is ever simultaneously in a waiting
queue and actively connected.  The handlers violate this: `connect` checks
only `ACTIVE_CONNECTIONS` and `WAITING_USERS` (not the topic lists), and
the `mode_one_on_one` callback changes the stored mode without dequeueing.
In the reachable state `stateC1` (topic enqueue, mode switch, one-on-one
match) user 1 is a key of the active-connection table and still sits in
the `arts` waiting list. -/
theorem C1_waiting_and_connected_simultaneously :
    dictGet stateC1.active_connections 1 = some 2 ∧ 1 ∈ topicQueue stateC1 "arts" := by
  decide

/-- C2: the claim states that disconnecting right after a match resets both
preference records to the default `{ONE_ON_ONE, none, none}`.  In the
reachable state `stateC2` users 1 and 2 are connected with topic
preferences `arts`; after `disconnect 1` the partner's connection entry is
indeed gone, but `set_user_preference(..., topic=None, group_id=None)`
passes the unsupplied defaults, so user 1's record still carries
`topic = "arts"` instead of the default `none`. -/
theorem C2_disconnect_keeps_topic_preference :
    dictGet stateC2.active_connections 1 = some 2 ∧
    dictGet (disconnect stateC2 1).active_connections 2 = none ∧
    dictGet (disconnect stateC2 1).user_preferences 1 =
      some ⟨ChatMode.one_on_one, some "arts", none⟩ := by
  decide

/-- C3: the claim states that `connect` rejects (as a no-op) a user who is
already waiting in any per-topic queue.  In `stateC3` user 1 is already in
the `arts` waiting list, yet `connect` — which only checks
`WAITING_USERS` — appends user 1 to the same list a second time and
re-records the waiting timestamp. -/
theorem C3_topic_waiter_enqueued_again :
    1 ∈ topicQueue stateC3 "arts" ∧
    topicQueue (connect stateC3 1 5 0) "arts" = [1, 1] ∧
    dictGet (connect stateC3 1 5 0).waiting_since 1 = some 5 := by
  decide

/-- C4 counterexample: the claim states that `ban_user` clears the banned
user's waiting timestamp, their pending reveal request, and resets their
preferences.  In `stateC4` user 1 is banned successfully, but the
`WAITING_SINCE` entry, the reveal request, and the non-default preference
record all survive untouched. -/
theorem C4_ban_keeps_timestamp_reveal_prefs :
    (ban_user stateC4 1).1 = true ∧
    dictGet (ban_user stateC4 1).2.waiting_since 1 = some 5 ∧
    dictGet (ban_user stateC4 1).2.reveal_requests 1 = some ⟨2, "pending"⟩ ∧
    dictGet (ban_user stateC4 1).2.user_preferences 1 =
      some ⟨ChatMode.topic, some "arts", none⟩ := by
  decide

theorem banRemoveFromGroups_not_mem (groups : List (String × GroupChat)) (target : Nat)
    (hgn : ∀ e ∈ groups, e.2.members.Nodup) :
    ∀ e ∈ banRemoveFromGroups groups target, target ∉ e.2.members := by
  intro e he
  rw [banRemoveFromGroups, List.mem_filterMap] at he
  obtain ⟨x, hx, hfx⟩ := he
  by_cases hmem : target ∈ x.2.members
  · rw [if_pos hmem] at hfx
    by_cases hemp : (x.2.members.erase target).isEmpty
    · simp [hemp] at hfx
    · simp only [hemp, Bool.false_eq_true, if_false, Option.some.injEq] at hfx
      rw [← hfx]
      exact nodup_not_mem_erase (hgn x hx)
  · rw [if_neg hmem] at hfx
    injection hfx with hxe
    subst hxe
    exact hmem

theorem banRemoveFromGroups_nonempty (groups : List (String × GroupChat)) (target : Nat)
    (hne : ∀ e ∈ groups, e.2.members ≠ []) :
    ∀ e ∈ banRemoveFromGroups groups target, e.2.members ≠ [] := by
  intro e he
  rw [banRemoveFromGroups, List.mem_filterMap] at he
  obtain ⟨x, hx, hfx⟩ := he
  by_cases hmem : target ∈ x.2.members
  · rw [if_pos hmem] at hfx
    by_cases hemp : (x.2.members.erase target).isEmpty
    · simp [hemp] at hfx
    · simp only [hemp, Bool.false_eq_true, if_false, Option.some.injEq] at hfx
      rw [← hfx]
      simpa using hemp
  · rw [if_neg hmem] at hfx
    injection hfx with hxe
    subst hxe
    exact hne x hx

theorem banRemoveFromGroups_preserves (groups : List (String × GroupChat)) (target : Nat) :
    ∀ e ∈ groups, target ∉ e.2.members → e ∈ banRemoveFromGroups groups target := by
  intro e he hmem
  rw [banRemoveFromGroups, List.mem_filterMap]
  exact ⟨e, he, by rw [if_neg hmem]⟩

/-- C4 amended: for a known user, `ban_user` succeeds and performs exactly
this cleanup: the target joins the ban set, leaves the global queue, every
topic queue, the active-connection table (the old partner's directed entry
is removed too) and every group, and no emptied group survives, while
groups not containing the target are untouched; but the waiting-since
timestamps, the reveal requests and the preference store are left exactly
as they were.  The queue hypotheses say the target is not duplicated in a
queue and group member sets are genuine sets, the non-emptiness hypothesis
is the group data-model invariant. -/
theorem C4_ban_member_cleanup (s : State) (target : Nat)
    (h : target ∈ s.all_users)
    (hw : countOcc s.waiting_users target ≤ 1)
    (htq : ∀ e ∈ s.waiting_by_topic, countOcc e.2 target ≤ 1)
    (hgn : ∀ e ∈ s.group_chats, e.2.members.Nodup)
    (hne : ∀ e ∈ s.group_chats, e.2.members ≠ []) :
    (ban_user s target).1 = true ∧
    target ∈ (ban_user s target).2.banned_users ∧
    target ∉ (ban_user s target).2.waiting_users ∧
    (∀ e ∈ (ban_user s target).2.waiting_by_topic, target ∉ e.2) ∧
    dictGet (ban_user s target).2.active_connections target = none ∧
    (∀ q, dictGet s.active_connections target = some q →
      dictGet (ban_user s target).2.active_connections q = none) ∧
    (∀ e ∈ (ban_user s target).2.group_chats, target ∉ e.2.members) ∧
    (∀ e ∈ (ban_user s target).2.group_chats, e.2.members ≠ []) ∧
    (∀ e ∈ s.group_chats, target ∉ e.2.members → e ∈ (ban_user s target).2.group_chats) ∧
    (ban_user s target).2.waiting_since = s.waiting_since ∧
    (ban_user s target).2.reveal_requests = s.reveal_requests ∧
    (ban_user s target).2.user_preferences = s.user_preferences := by
  have hbanned : (ban_user s target).2.banned_users = setInsert s.banned_users target := by
    cases hA : dictGet s.active_connections target <;> simp [ban_user, h, hA]
  have hwu : (ban_user s target).2.waiting_users = s.waiting_users.erase target := by
    cases hA : dictGet s.active_connections target <;> simp [ban_user, h, hA]
  have hwt : (ban_user s target).2.waiting_by_topic =
      s.waiting_by_topic.map (fun (e : String × List Nat) => (e.1, e.2.erase target)) := by
    cases hA : dictGet s.active_connections target <;> simp [ban_user, h, hA]
  have hgc : (ban_user s target).2.group_chats = banRemoveFromGroups s.group_chats target := by
    cases hA : dictGet s.active_connections target <;> simp [ban_user, h, hA]
  have hres : (ban_user s target).1 = true := by
    cases hA : dictGet s.active_connections target <;> simp [ban_user, h, hA]
  have hunchanged : (ban_user s target).2.waiting_since = s.waiting_since ∧
      (ban_user s target).2.reveal_requests = s.reveal_requests ∧
      (ban_user s target).2.user_preferences = s.user_preferences := by
    cases hA : dictGet s.active_connections target <;> simp [ban_user, h, hA]
  refine ⟨hres, ?_, ?_, ?_, ?_, ?_, ?_, ?_, ?_, hunchanged.1, hunchanged.2.1,
    hunchanged.2.2⟩
  · rw [hbanned]
    exact mem_setInsert_self _ _
  · rw [hwu]
    exact countOcc_le_one_not_mem_erase hw
  · rw [hwt]
    intro e he
    obtain ⟨x, hx, hxe⟩ := List.mem_map.mp he
    rw [← hxe]
    exact countOcc_le_one_not_mem_erase (htq x hx)
  · cases hA : dictGet s.active_connections target with
    | none =>
      have : (ban_user s target).2.active_connections = s.active_connections := by
        simp [ban_user, h, hA]
      rw [this, hA]
    | some q =>
      have : (ban_user s target).2.active_connections =
          dictErase (dictErase s.active_connections target) q := by
        simp [ban_user, h, hA]
      rw [this, dictGet_dictErase]
      by_cases htq2 : target = q
      · rw [if_pos htq2]
      · rw [if_neg htq2, dictGet_dictErase, if_pos rfl]
  · intro q hq
    have : (ban_user s target).2.active_connections =
        dictErase (dictErase s.active_connections target) q := by
      simp [ban_user, h, hq]
    rw [this, dictGet_dictErase, if_pos rfl]
  · rw [hgc]
    exact banRemoveFromGroups_not_mem s.group_chats target hgn
  · rw [hgc]
    exact banRemoveFromGroups_nonempty s.group_chats target hne
  · rw [hgc]
    exact banRemoveFromGroups_preserves s.group_chats target

/-- C4 amended witness: the cleanup applied to `stateC4` (user 1 known,
waiting since time 5, with a pending reveal request and a non-default
preference record). -/
theorem C4_ban_member_cleanup_witness :
    (ban_user stateC4 1).1 = true ∧
    1 ∈ (ban_user stateC4 1).2.banned_users ∧
    1 ∉ (ban_user stateC4 1).2.waiting_users ∧
    (∀ e ∈ (ban_user stateC4 1).2.waiting_by_topic, 1 ∉ e.2) ∧
    dictGet (ban_user stateC4 1).2.active_connections 1 = none ∧
    (∀ q, dictGet stateC4.active_connections 1 = some q →
      dictGet (ban_user stateC4 1).2.active_connections q = none) ∧
    (∀ e ∈ (ban_user stateC4 1).2.group_chats, 1 ∉ e.2.members) ∧
    (∀ e ∈ (ban_user stateC4 1).2.group_chats, e.2.members ≠ []) ∧
    (∀ e ∈ stateC4.group_chats, 1 ∉ e.2.members → e ∈ (ban_user stateC4 1).2.group_chats) ∧
    (ban_user stateC4 1).2.waiting_since = stateC4.waiting_since ∧
    (ban_user stateC4 1).2.reveal_requests = stateC4.reveal_requests ∧
    (ban_user stateC4 1).2.user_preferences = stateC4.user_preferences :=
  C4_ban_member_cleanup stateC4 1 (by decide) (by decide) (by decide) (by decide)
    (by decide)

/-- C5: the claim states that after an admin sets `connection_timeout` to
`v ∈ [5, 300]`, the sweeper evicts exactly the users whose elapsed wait
exceeds `v`.  The admin command does store `v` (here 300), but
`check_waiting_timeouts` compares against the constant
`TIMEOUT_SECONDS = 45`: user 1, waiting only 46 seconds, is evicted even
though 46 < 300. -/
theorem C5_sweeper_ignores_configured_timeout :
    (admin_set_timeout stateC5 9 300).connection_timeout = 300 ∧
    1 ∈ stateC5.waiting_users ∧
    1 ∉ (check_waiting_timeouts (admin_set_timeout stateC5 9 300) 46).waiting_users ∧
    dictGet (check_waiting_timeouts (admin_set_timeout stateC5 9 300) 46).waiting_since 1 =
      none := by
  decide

/-- C9 counterexample: the claim states that `find_partner` leaves the
preference store unchanged.  When called (as `connect` calls it) with the
mode argument defaulted, it reads the requester's preference via
`get_user_preference`, which lazily creates and stores a default record:
on the initial state the preference store grows. -/
theorem C9_find_partner_writes_preference_store :
    (find_partner initialState 1 none none 0).2.user_preferences ≠
      initialState.user_preferences := by
  decide

theorem find_partner_select_ne_self (s : State) (uid : Nat) (m : ChatMode)
    (t : Option String) (k : Nat) : find_partner_select s uid m t k ≠ some uid := by
  cases m with
  | one_on_one =>
    by_cases he : (s.waiting_users.erase uid).isEmpty
    · simp [find_partner_select, he]
    · by_cases hpu :
        (s.waiting_users.erase uid).getD (k % (s.waiting_users.erase uid).length) 0 = uid
      · simp [find_partner_select, he, hpu]
      · simp [find_partner_select, he, hpu]
  | group => simp [find_partner_select]
  | topic =>
    cases t with
    | none => simp [find_partner_select]
    | some tt =>
      by_cases ht : tt ∈ AVAILABLE_TOPICS
      · by_cases he : ((topicQueue s tt).erase uid).isEmpty
        · simp [find_partner_select, ht, he]
        · by_cases hpu : ((topicQueue s tt).erase uid).getD
            (k % ((topicQueue s tt).erase uid).length) 0 = uid
          · simp [find_partner_select, ht, he, hpu]
          · simp [find_partner_select, ht, he, hpu]
      · simp [find_partner_select, ht]

/-- C9 amended: for every state — including queues in which the
requester's id occurs several times — `find_partner` never returns the
requester's own id, and it leaves the waiting queues, the
active-connection table, the waiting timestamps, the group registry and
the reveal requests unchanged.  The resulting preference store is
characterised exactly: it is the original store with the requester's
default record inserted when the mode argument is defaulted and the
requester has no record (the lazy creation of `get_user_preference`),
and it is exactly the original store in every other case (mode supplied,
or record already present). -/
theorem C9_find_partner_never_self_and_reads_only (s : State) (uid : Nat)
    (mode : Option ChatMode) (topic : Option String) (k : Nat) :
    (find_partner s uid mode topic k).1 ≠ some uid ∧
    (find_partner s uid mode topic k).2.waiting_users = s.waiting_users ∧
    (find_partner s uid mode topic k).2.waiting_by_topic = s.waiting_by_topic ∧
    (find_partner s uid mode topic k).2.active_connections = s.active_connections ∧
    (find_partner s uid mode topic k).2.waiting_since = s.waiting_since ∧
    (find_partner s uid mode topic k).2.group_chats = s.group_chats ∧
    (find_partner s uid mode topic k).2.reveal_requests = s.reveal_requests ∧
    (find_partner s uid mode topic k).2.user_preferences =
      (if mode = none ∧ dictGet s.user_preferences uid = none then
        dictInsert s.user_preferences uid defaultPreference
      else s.user_preferences) := by
  cases mode with
  | some m =>
    refine ⟨?_, rfl, rfl, rfl, rfl, rfl, rfl, by simp [find_partner]⟩
    exact find_partner_select_ne_self s uid m topic k
  | none =>
    unfold find_partner get_user_preference
    cases hp : dictGet s.user_preferences uid with
    | some p =>
      refine ⟨?_, rfl, rfl, rfl, rfl, rfl, rfl, by simp [hp]⟩
      exact find_partner_select_ne_self s uid p.mode p.topic k
    | none =>
      refine ⟨?_, rfl, rfl, rfl, rfl, rfl, rfl, by simp [hp]⟩
      exact find_partner_select_ne_self _ uid defaultPreference.mode defaultPreference.topic k

/-- C10: if the ban target was never recorded in `ALL_USERS`, `ban_user`
returns failure and the whole state — ban set, queues, connections, groups
and all — is exactly unchanged. -/
theorem C10_ban_unknown_user_is_noop (s : State) (target : Nat)
    (h : target ∉ s.all_users) : ban_user s target = (false, s) := by
  simp [ban_user, h]

/-- C10 witness: `ban_user` on the empty initial state with unknown target
1 fails and changes nothing. -/
theorem C10_ban_unknown_user_is_noop_witness :
    (1 : Nat) ∉ initialState.all_users ∧ ban_user initialState 1 = (false, initialState) :=
  ⟨by decide, C10_ban_unknown_user_is_noop initialState 1 (by decide)⟩

theorem gateBlocks_false (s : State) (u : Nat) (hb : u ∉ s.banned_users)
    (hm : s.maintenance_mode = false) : gateBlocks s u = false := by
  simp [gateBlocks, hb, hm]

theorem reveal_identity_shape (s : State) (u : Nat) :
    ∃ au rr, reveal_identity s u = { s with all_users := au, reveal_requests := rr } := by
  simp only [reveal_identity]
  split
  · exact ⟨_, _, rfl⟩
  · split
    · exact ⟨_, _, rfl⟩
    · split
      · exact ⟨_, _, rfl⟩
      · exact ⟨_, _, rfl⟩

theorem cb_reveal_no_shape (s : State) (u rq : Nat) :
    ∃ au rr, cb_reveal_no s u rq = { s with all_users := au, reveal_requests := rr } := by
  simp only [cb_reveal_no]
  split
  · exact ⟨_, _, rfl⟩
  · split
    · exact ⟨_, _, rfl⟩
    · exact ⟨_, _, rfl⟩

theorem ne_key_of_mem_dictErase {α β : Type} [DecidableEq α] {d : List (α × β)} {k : α}
    {p : α × β} (h : p ∈ dictErase d k) : p.1 ≠ k := by
  induction d with
  | nil => simp [dictErase] at h
  | cons e rest ih =>
    rcases e with ⟨k', v'⟩
    by_cases hk : k' = k
    · rw [dictErase, if_pos hk] at h
      exact ih h
    · rw [dictErase, if_neg hk] at h
      rcases List.mem_cons.mp h with he | he
      · rw [he]
        exact hk
      · exact ih he

theorem maintLoop_dictGet (admins : List Nat) (keys : List Nat) :
    ∀ (conns : List (Nat × Nat)),
    (∀ p ∈ conns, dictGet conns p.2 = some p.1) →
    ((conns.map Prod.fst).Nodup) →
    (∀ p ∈ conns, p.1 ≠ 0 ∧ p.2 ≠ 0) →
    (∀ p ∈ conns, p.1 ∉ admins → p.2 ∉ admins → p.1 ∈ keys) →
    ∀ a b, dictGet (maintDisconnectLoop admins keys conns) a = some b ↔
      (dictGet conns a = some b ∧ (a ∈ admins ∨ b ∈ admins)) := by
  induction keys with
  | nil =>
    intro conns hsym hnd hnz hcov a b
    simp only [maintDisconnectLoop]
    constructor
    · intro hg
      refine ⟨hg, ?_⟩
      by_contra hc
      push_neg at hc
      exact List.not_mem_nil _ (hcov (a, b) (mem_of_dictGet_eq_some hg) hc.1 hc.2)
    · exact And.left
  | cons u rest ih =>
    intro conns hsym hnd hnz hcov a b
    by_cases hu : u ∈ admins
    · rw [show maintDisconnectLoop admins (u :: rest) conns =
          maintDisconnectLoop admins rest conns by simp [maintDisconnectLoop, hu]]
      apply ih conns hsym hnd hnz
      intro p hp h1 h2
      rcases List.mem_cons.mp (hcov p hp h1 h2) with he | he
      · exact absurd (he ▸ hu) h1
      · exact he
    · cases hgu : dictGet conns u with
      | none =>
        rw [show maintDisconnectLoop admins (u :: rest) conns =
            maintDisconnectLoop admins rest conns by simp [maintDisconnectLoop, hu, hgu]]
        apply ih conns hsym hnd hnz
        intro p hp h1 h2
        rcases List.mem_cons.mp (hcov p hp h1 h2) with he | he
        · exfalso
          obtain ⟨p1, p2⟩ := p
          have hm : dictGet conns p1 = some p2 := dictGet_eq_some_of_mem hnd hp
          rw [show p1 = u from he] at hm
          rw [hgu] at hm
          exact Option.noConfusion hm
        · exact he
      | some q =>
        have huq : (u, q) ∈ conns := mem_of_dictGet_eq_some hgu
        have hqz : q ≠ 0 := (hnz (u, q) huq).2
        by_cases hq : q ∈ admins
        · rw [show maintDisconnectLoop admins (u :: rest) conns =
              maintDisconnectLoop admins rest conns by
                simp [maintDisconnectLoop, hu, hgu, hq]]
          apply ih conns hsym hnd hnz
          intro p hp h1 h2
          rcases List.mem_cons.mp (hcov p hp h1 h2) with he | he
          · exfalso
            obtain ⟨p1, p2⟩ := p
            have hm : dictGet conns p1 = some p2 := dictGet_eq_some_of_mem hnd hp
            rw [show p1 = u from he] at hm
            rw [hgu] at hm
            exact h2 (Option.some.inj hm ▸ hq)
          · exact he
        · have hloop : maintDisconnectLoop admins (u :: rest) conns =
              maintDisconnectLoop admins rest (dictErase (dictErase conns u) q) := by
            simp [maintDisconnectLoop, hu, hgu, hq, hqz]
          have herase : ∀ x, dictGet (dictErase (dictErase conns u) q) x =
              if x = q then none else if x = u then none else dictGet conns x := by
            intro x
            rw [dictGet_dictErase, dictGet_dictErase]
          have hsub : ∀ p ∈ dictErase (dictErase conns u) q, p ∈ conns := by
            intro p hp
            exact mem_of_mem_dictErase (mem_of_mem_dictErase hp)
          have hkeyq : ∀ p ∈ dictErase (dictErase conns u) q, p.1 ≠ q ∧ p.1 ≠ u := by
            intro p hp
            exact ⟨ne_key_of_mem_dictErase hp,
              ne_key_of_mem_dictErase (mem_of_mem_dictErase hp)⟩
          have hgq : dictGet conns q = some u := hsym (u, q) huq
          have hsym2 : ∀ p ∈ dictErase (dictErase conns u) q,
              dictGet (dictErase (dictErase conns u) q) p.2 = some p.1 := by
            intro p hp
            obtain ⟨hp1q, hp1u⟩ := hkeyq p hp
            have hpc := hsub p hp
            have hval : dictGet conns p.2 = some p.1 := hsym p hpc
            have hp2u : p.2 ≠ u := by
              intro he
              rw [he, hgu] at hval
              exact hp1q (Option.some.inj hval).symm
            have hp2q : p.2 ≠ q := by
              intro he
              rw [he, hgq] at hval
              exact hp1u (Option.some.inj hval).symm
            rw [herase p.2, if_neg hp2q, if_neg hp2u]
            exact hval
          have hnd2 : ((dictErase (dictErase conns u) q).map Prod.fst).Nodup :=
            nodupKeys_dictErase _ _ (nodupKeys_dictErase _ _ hnd)
          have hnz2 : ∀ p ∈ dictErase (dictErase conns u) q, p.1 ≠ 0 ∧ p.2 ≠ 0 := by
            intro p hp
            exact hnz p (hsub p hp)
          have hcov2 : ∀ p ∈ dictErase (dictErase conns u) q,
              p.1 ∉ admins → p.2 ∉ admins → p.1 ∈ rest := by
            intro p hp h1 h2
            rcases List.mem_cons.mp (hcov p (hsub p hp) h1 h2) with he | he
            · exact absurd he (hkeyq p hp).2
            · exact he
          rw [hloop, ih _ hsym2 hnd2 hnz2 hcov2 a b]
          constructor
          · intro ⟨hga, hadm⟩
            rw [herase a] at hga
            by_cases haq : a = q
            · rw [if_pos haq] at hga
              exact Option.noConfusion hga
            · rw [if_neg haq] at hga
              by_cases hau : a = u
              · rw [if_pos hau] at hga
                exact Option.noConfusion hga
              · rw [if_neg hau] at hga
                exact ⟨hga, hadm⟩
          · intro ⟨hga, hadm⟩
            refine ⟨?_, hadm⟩
            rw [herase a]
            by_cases haq : a = q
            · exfalso
              rw [haq, hgq] at hga
              have hbu : b = u := (Option.some.inj hga).symm
              rcases hadm with hh | hh
              · exact hq (haq ▸ hh)
              · exact hu (hbu ▸ hh)
            · rw [if_neg haq]
              by_cases hau : a = u
              · exfalso
                rw [hau, hgu] at hga
                have hbq : b = q := (Option.some.inj hga).symm
                rcases hadm with hh | hh
                · exact hu (hau ▸ hh)
                · exact hq (hbq ▸ hh)
              · rw [if_neg hau]
                exact hga

/-- C6: enabling maintenance mode sets the flag and removes from the
active-connection table exactly those directed entries whose pair involves
no admin: afterwards `a` is connected to `b` iff it was before and at
least one of the two is an admin.  The hypotheses are the connection-table
data-model invariants (symmetry, at most one entry per key) plus the
platform fact that user ids are non-zero (Python's `if partner_id:`
truthiness test). -/
theorem C6_maintenance_disconnects_non_admin_pairs (s : State)
    (hsym : ∀ p ∈ s.active_connections,
      dictGet s.active_connections p.2 = some p.1)
    (hnd : (s.active_connections.map Prod.fst).Nodup)
    (hnz : ∀ p ∈ s.active_connections, p.1 ≠ 0 ∧ p.2 ≠ 0) :
    (toggle_maintenance_mode s true).maintenance_mode = true ∧
    ∀ a b, dictGet (toggle_maintenance_mode s true).active_connections a = some b ↔
      (dictGet s.active_connections a = some b ∧
        (a ∈ s.admin_ids ∨ b ∈ s.admin_ids)) := by
  have hact : (toggle_maintenance_mode s true).active_connections =
      maintDisconnectLoop s.admin_ids (s.active_connections.map (fun p => p.1))
        s.active_connections := by
    simp [toggle_maintenance_mode]
  refine ⟨by simp [toggle_maintenance_mode], ?_⟩
  intro a b
  rw [hact]
  apply maintLoop_dictGet s.admin_ids _ s.active_connections hsym hnd hnz
  intro p hp h1 h2
  exact List.mem_map_of_mem (fun p => p.1) hp

/-- C6 witness: on `stateC6` (non-admin pair (1,2), admin pair (3,4) with
admin 3) enabling maintenance keeps the admin pair and removes the
non-admin pair. -/
theorem C6_maintenance_disconnects_non_admin_pairs_witness :
    (toggle_maintenance_mode stateC6 true).maintenance_mode = true ∧
    dictGet (toggle_maintenance_mode stateC6 true).active_connections 3 = some 4 ∧
    dictGet (toggle_maintenance_mode stateC6 true).active_connections 1 ≠ some 2 := by
  have h := C6_maintenance_disconnects_non_admin_pairs stateC6 (by decide) (by decide)
    (by decide)
  refine ⟨h.1, ?_, ?_⟩
  · exact (h.2 3 4).mpr ⟨by decide, Or.inl (by decide)⟩
  · intro hcon
    exact absurd ((h.2 1 2).mp hcon).2 (by decide)

/-- C7: the reveal-request state machine from a clean connected pair:
requesting stores exactly one pending request keyed by the requester; a
second request while one is pending leaves the reveal-request map
untouched; after the partner declines, the map holds an entry for neither
party; and a fresh request from the same requester is then accepted again
(there is no terminal state distinct from absent). -/
theorem C7_reveal_request_cycle (s : State) (r p : Nat)
    (hconn : dictGet s.active_connections r = some p)
    (hr : dictGet s.reveal_requests r = none)
    (hp : dictGet s.reveal_requests p = none)
    (hrb : r ∉ s.banned_users) (hpb : p ∉ s.banned_users)
    (hm : s.maintenance_mode = false) :
    dictGet (reveal_identity s r).reveal_requests r = some ⟨p, "pending"⟩ ∧
    (reveal_identity (reveal_identity s r) r).reveal_requests =
      (reveal_identity s r).reveal_requests ∧
    dictGet (cb_reveal_no (reveal_identity s r) p r).reveal_requests r = none ∧
    dictGet (cb_reveal_no (reveal_identity s r) p r).reveal_requests p = none ∧
    dictGet (reveal_identity (cb_reveal_no (reveal_identity s r) p r) r).reveal_requests r =
      some ⟨p, "pending"⟩ := by
  have hg1 : gateBlocks { s with all_users := setInsert s.all_users r } r = false :=
    gateBlocks_false s r hrb hm
  set s1 := reveal_identity s r with hs1
  obtain ⟨au1, rr1, hshape1⟩ := reveal_identity_shape s r
  have hb1 : s1.banned_users = s.banned_users := by rw [hs1, hshape1]
  have hm1 : s1.maintenance_mode = s.maintenance_mode := by rw [hs1, hshape1]
  have ha1 : s1.active_connections = s.active_connections := by rw [hs1, hshape1]
  have e1req : s1.reveal_requests = dictInsert s.reveal_requests r ⟨p, "pending"⟩ := by
    rw [hs1]
    simp [reveal_identity, hg1, hconn, dictContains, hr]
  have conj1 : dictGet s1.reveal_requests r = some ⟨p, "pending"⟩ := by
    rw [e1req, dictGet_dictInsert_self]
  have hg2 : gateBlocks { s1 with all_users := setInsert s1.all_users r } r = false :=
    gateBlocks_false s1 r (hb1 ▸ hrb) (hm1.trans hm)
  have hA1 : dictGet s1.active_connections r = some p := by rw [ha1, hconn]
  have hcont1 : dictContains s1.reveal_requests r = true := by
    rw [dictContains, conj1]
    rfl
  have conj2 : (reveal_identity s1 r).reveal_requests = s1.reveal_requests := by
    simp [reveal_identity, hg2, hA1, hcont1]
  have hg3 : gateBlocks { s1 with all_users := setInsert s1.all_users p } p = false :=
    gateBlocks_false s1 p (hb1 ▸ hpb) (hm1.trans hm)
  set s2 := cb_reveal_no s1 p r with hs2
  have e2req : s2.reveal_requests = dictErase s1.reveal_requests r := by
    rw [hs2]
    simp [cb_reveal_no, hg3, hcont1]
  obtain ⟨au2, rr2, hshape2⟩ := cb_reveal_no_shape s1 p r
  have hb2 : s2.banned_users = s.banned_users := by rw [hs2, hshape2]; exact hb1
  have hm2 : s2.maintenance_mode = s.maintenance_mode := by rw [hs2, hshape2]; exact hm1
  have ha2 : s2.active_connections = s.active_connections := by rw [hs2, hshape2]; exact ha1
  have conj3 : dictGet s2.reveal_requests r = none := by
    rw [e2req, dictGet_dictErase]
    simp
  have conj4 : dictGet s2.reveal_requests p = none := by
    rw [e2req, dictGet_dictErase]
    by_cases hpr : p = r
    · simp [hpr]
    · rw [if_neg hpr, e1req, dictGet_dictInsert_ne _ _ _ _ hpr, hp]
  have hg4 : gateBlocks { s2 with all_users := setInsert s2.all_users r } r = false :=
    gateBlocks_false s2 r (hb2 ▸ hrb) (hm2.trans hm)
  have hA2 : dictGet s2.active_connections r = some p := by rw [ha2, hconn]
  have hcont2 : dictContains s2.reveal_requests r = false := by
    rw [dictContains, conj3]
    rfl
  have conj5 : dictGet (reveal_identity s2 r).reveal_requests r = some ⟨p, "pending"⟩ := by
    have : (reveal_identity s2 r).reveal_requests =
        dictInsert s2.reveal_requests r ⟨p, "pending"⟩ := by
      simp [reveal_identity, hg4, hA2, hcont2, dictContains, conj3]
    rw [this, dictGet_dictInsert_self]
  exact ⟨conj1, conj2, conj3, conj4, conj5⟩

/-- C7 witness: the cycle at the concrete connected pair (1, 2) of
`stateC7`. -/
theorem C7_reveal_request_cycle_witness :
    dictGet (reveal_identity stateC7 1).reveal_requests 1 = some ⟨2, "pending"⟩ ∧
    (reveal_identity (reveal_identity stateC7 1) 1).reveal_requests =
      (reveal_identity stateC7 1).reveal_requests ∧
    dictGet (cb_reveal_no (reveal_identity stateC7 1) 2 1).reveal_requests 1 = none ∧
    dictGet (cb_reveal_no (reveal_identity stateC7 1) 2 1).reveal_requests 2 = none ∧
    dictGet (reveal_identity (cb_reveal_no (reveal_identity stateC7 1) 2 1)
        1).reveal_requests 1 = some ⟨2, "pending"⟩ :=
  C7_reveal_request_cycle stateC7 1 2 (by decide) (by decide) (by decide) (by decide)
    (by decide) (by decide)

/-- C8: from any state, `create_group_chat(c, name, max_size=5)` followed
by `add_to_group(o)` succeeds; `leave_group(c)` then reports `transferred`
and the registered group has creator `o` (sole member `o`); a further
`leave_group(o)` reports `deleted` and the group id is gone from the
registry. -/
theorem C8_create_join_leave_roundtrip (s : State) (c o : Nat) (gid nm : String)
    (h : c ≠ o) :
    (add_to_group (create_group_chat s c gid nm 5).2 o gid).1 = true ∧
    (leave_group (add_to_group (create_group_chat s c gid nm 5).2 o gid).2 c gid).1 =
      LeaveResult.transferred ∧
    dictGet (leave_group (add_to_group (create_group_chat s c gid nm 5).2 o gid).2
        c gid).2.group_chats gid = some ⟨gid, o, [o], nm, 5⟩ ∧
    (leave_group (leave_group (add_to_group (create_group_chat s c gid nm 5).2 o gid).2
        c gid).2 o gid).1 = LeaveResult.deleted ∧
    dictContains (leave_group (leave_group (add_to_group
        (create_group_chat s c gid nm 5).2 o gid).2 c gid).2 o gid).2.group_chats gid =
      false := by
  have hoc : o ≠ c := Ne.symm h
  set A := (create_group_chat s c gid nm 5).2 with hA
  have h2 : dictGet A.group_chats gid = some ⟨gid, c, [c], nm, 5⟩ := by
    rw [hA]
    have h1 : (create_group_chat s c gid nm 5).2.group_chats =
        dictInsert s.group_chats gid ⟨gid, c, [c], nm, 5⟩ := by
      simp [create_group_chat, supref_group_chats]
    rw [h1, dictGet_dictInsert_self]
  have hmem : setInsert [c] o = [c, o] := by
    simp [setInsert, hoc]
  have h3a : (add_to_group A o gid).1 = true := by
    simp [add_to_group, h2, GroupChat.is_full]
  have h3b : (add_to_group A o gid).2.group_chats =
      dictInsert A.group_chats gid ⟨gid, c, [c, o], nm, 5⟩ := by
    simp [add_to_group, h2, GroupChat.is_full, hmem, supref_group_chats]
  set B := (add_to_group A o gid).2 with hB
  have h5 : dictGet B.group_chats gid = some ⟨gid, c, [c, o], nm, 5⟩ := by
    rw [h3b, dictGet_dictInsert_self]
  have herase1 : List.erase [c, o] c = [o] := by
    simp [List.erase_cons]
  have h6a : (leave_group B c gid).1 = LeaveResult.transferred := by
    simp [leave_group, h5, herase1]
  have h6b : (leave_group B c gid).2.group_chats =
      dictInsert (dictInsert B.group_chats gid ⟨gid, c, [o], nm, 5⟩) gid
        ⟨gid, o, [o], nm, 5⟩ := by
    simp [leave_group, h5, herase1, supref_group_chats]
  set C := (leave_group B c gid).2 with hC
  have h7 : dictGet C.group_chats gid = some ⟨gid, o, [o], nm, 5⟩ := by
    rw [h6b, dictGet_dictInsert_self]
  have h8a : (leave_group C o gid).1 = LeaveResult.deleted := by
    simp [leave_group, h7]
  have h8b : dictContains (leave_group C o gid).2.group_chats gid = false := by
    simp [leave_group, h7, dictContains, dictGet_dictErase, supref_group_chats]
  exact ⟨h3a, h6a, h7, h8a, h8b⟩

/-- C8 witness: the round trip at creator 1, joiner 2, group id `"g"`,
name `"X"`, from the initial state. -/
theorem C8_create_join_leave_roundtrip_witness :
    (add_to_group (create_group_chat initialState 1 "g" "X" 5).2 2 "g").1 = true ∧
    (leave_group (add_to_group (create_group_chat initialState 1 "g" "X" 5).2 2 "g").2
      1 "g").1 = LeaveResult.transferred ∧
    dictGet (leave_group (add_to_group (create_group_chat initialState 1 "g" "X" 5).2
        2 "g").2 1 "g").2.group_chats "g" = some ⟨"g", 2, [2], "X", 5⟩ ∧
    (leave_group (leave_group (add_to_group (create_group_chat initialState 1 "g" "X" 5).2
        2 "g").2 1 "g").2 2 "g").1 = LeaveResult.deleted ∧
    dictContains (leave_group (leave_group (add_to_group
        (create_group_chat initialState 1 "g" "X" 5).2 2 "g").2 1 "g").2 2 "g").2.group_chats
      "g" = false :=
  C8_create_join_leave_roundtrip initialState 1 2 "g" "X" (by decide)

end AnonChat
